import Mathlib

/-!
Verification of the PromptLang compiler-platform core against its
natural-language specification.

The definitions below are a shallow embedding of the Python sources:

* `promptlang/core/validator/contract.py`   — `ContractVerifier.verify`
* `promptlang/core/validator/output_validator.py` — `OutputValidator.validate`
* `promptlang/core/validator/parsers.py`    — `OutputParser._extract_file_blocks`
* `promptlang/core/cache/l1_cache.py`       — `L1Cache`
* `promptlang/core/cache/manager.py`        — `CacheManager`
* `promptlang/core/ir/validator.py`         — `IRValidator`
* `promptlang/core/optimizer/token_optimizer.py` — `TokenOptimizer`
* `promptlang/core/compiler/dialects/{claude,gpt,oss}.py`
* `promptlang/core/pipeline/orchestrator.py` — `PipelineOrchestrator.execute`

Python dictionaries carrying the IR document are modelled as records whose
fields are `Option`-valued: `none` means the key is absent.  Wall-clock time
(`time.time()`) is threaded explicitly as a `Nat` parameter.  Calls that are
external to the core (LLM draft building, output generation, Redis I/O,
JSON serialization, hashing) are taken as function parameters.
-/

/-! ## IR document data model (`ir` dicts passed between stages) -/

/-- `meta` section of the IR document (keys used by the core). -/
structure MetaSection where
  intent : Option String := none
  schema_version : Option String := none
  compiler_version : Option String := none
deriving DecidableEq, Inhabited

/-- `task` section of the IR document. -/
structure TaskSection where
  description : Option String := none
  scope : Option String := none
deriving DecidableEq, Inhabited

/-- `context.stack` sub-dictionary. -/
structure StackInfo where
  language : Option String := none
  framework : Option String := none
deriving DecidableEq, Inhabited

/-- `context` section of the IR document. -/
structure ContextSection where
  stack : Option StackInfo := none
deriving DecidableEq, Inhabited

/-- `constraints` section of the IR document. -/
structure ConstraintsSection where
  must_have : Option (List String) := none
  must_avoid : Option (List String) := none
  security_preserve : Option Bool := none
deriving DecidableEq, Inhabited

/-- `output_contract` section of the IR document. -/
structure OutputContract where
  required_sections : Option (List String) := none
  required_files : Option (List String) := none
  file_block_format : Option String := none
deriving DecidableEq, Inhabited

/-- `quality_checks` section of the IR document. -/
structure QualityChecks where
  validation_level : Option String := none
  security_level : Option String := none
deriving DecidableEq, Inhabited

/-- The IR document: a nested dictionary with six top-level sections.
A `none` field models an absent key. -/
structure Doc where
  meta : Option MetaSection := none
  task : Option TaskSection := none
  context : Option ContextSection := none
  constraints : Option ConstraintsSection := none
  output_contract : Option OutputContract := none
  quality_checks : Option QualityChecks := none
deriving DecidableEq, Inhabited

/-! ## Parsed generated output (`parsers.py`) -/

/-- A markdown section extracted by `OutputParser._extract_sections`. -/
structure OutputSection where
  name : String
  content : String
deriving DecidableEq, Inhabited

/-- A file block produced by `OutputParser._extract_file_blocks`:
`{"path": ..., "language": ..., "content": ...}`. -/
structure FileBlock where
  path : String
  language : String
  content : String
deriving DecidableEq, Inhabited

/-- Parsed output as returned by `OutputParser.parse`
(`raw_output` is never consulted downstream and is omitted). -/
structure ParsedOutput where
  sections : List OutputSection
  file_blocks : List FileBlock
deriving DecidableEq, Inhabited

/-- One match of `OutputParser.FILE_BLOCK_PATTERN`, i.e. of the regex
`FILE:\s*(.+?)\n(three backticks)(?:lang|(\w+))?\n(.*?)(three backticks)`.
`path` is group 1 (stripped), `content` is group 3 (stripped), and
`langTag` is group 2: `none` when the fenced code has no language tag at
all or carries the literal placeholder `lang` (the first, non-capturing
alternative of the group); otherwise `some` of the `\w+` word, which is
necessarily non-empty. The regex layer itself is the unmodelled lexical
part; everything after `match.group(...)` is modelled. -/
structure RawFileMatch where
  path : String
  langTag : Option String
  content : String
deriving DecidableEq, Inhabited

namespace OutputParser

/-- `OutputParser._extract_file_blocks`, from the list of regex matches:
each match becomes `{"path": p, "language": match.group(2) or "text",
"content": c}` — `or` replaces a falsy group 2 (a missing language tag,
i.e. `None`, or the empty string) with `"text"`. -/
def extractFileBlocks (ms : List RawFileMatch) : List FileBlock :=
  ms.map fun m =>
    { path := m.path
      language :=
        match m.langTag with
        | none => "text"
        | some s => if s == "" then "text" else s
      content := m.content }

end OutputParser

/-! ## Contract verifier (`contract.py`) -/

/-- The `compliance_summary` dictionary built by `ContractVerifier.verify`. -/
structure ComplianceSummary where
  required_sections_present : List String
  required_sections_missing : List String
  required_files_present : List String
  required_files_missing : List String
  file_block_format_correct : Bool
  compliant : Bool
deriving DecidableEq, Inhabited

namespace ContractVerifier

/-- `ContractVerifier.verify(parsed_output, ir)`.  Mirrors the source:
required sections / files are partitioned into present/missing against the
parsed names, `compliant` is cleared on each missing entry, and in
`file_block_format == "strict"` mode it is also cleared whenever a file
block has a falsy `language` value (in the model: the empty string). -/
def verify (parsed : ParsedOutput) (ir : Doc) : Bool × ComplianceSummary :=
  let output_contract := ir.output_contract.getD {}
  let required_sections := output_contract.required_sections.getD []
  let required_files := output_contract.required_files.getD []
  let file_block_format := output_contract.file_block_format.getD "strict"
  let section_names := parsed.sections.map (·.name)
  let file_paths := parsed.file_blocks.map (·.path)
  let secPresent := required_sections.filter (fun s => section_names.contains s)
  let secMissing := required_sections.filter (fun s => !section_names.contains s)
  let filePresent := required_files.filter (fun f => file_paths.contains f)
  let fileMissing := required_files.filter (fun f => !file_paths.contains f)
  let formatCorrect :=
    if file_block_format = "strict" then
      parsed.file_blocks.all (fun fb => fb.language != "")
    else true
  let compliant := secMissing.isEmpty && fileMissing.isEmpty && formatCorrect
  (compliant,
    { required_sections_present := secPresent
      required_sections_missing := secMissing
      required_files_present := filePresent
      required_files_missing := fileMissing
      file_block_format_correct := formatCorrect
      compliant := compliant })

end ContractVerifier

/-! ## Output validator status (`output_validator.py`, lines 44–96) -/

/-- A finding dictionary as produced by the syntax / security / quality
scanners: all carry a `"severity"` and a `"type"` key. -/
structure Finding where
  type : String
  severity : String
  message : String := ""
deriving DecidableEq, Inhabited

namespace OutputValidator

/-- The status decision of `OutputValidator.validate` (lines 77–96):
given the merged findings, the contract-compliance flag and the IR's
`quality_checks` (with defaults `"low"` / `"progressive"`), pick the first
matching rule. -/
def statusOf (all_findings : List Finding) (contract_compliant : Bool)
    (ir : Doc) : String :=
  let has_errors := all_findings.any (fun f => f.severity == "error")
  let has_security_errors :=
    all_findings.any (fun f => f.type == "security" && f.severity == "error")
  let security_level := ((ir.quality_checks.getD {}).security_level).getD "low"
  let validation_level :=
    ((ir.quality_checks.getD {}).validation_level).getD "progressive"
  if has_security_errors && (security_level == "high") then "blocked"
  else if !contract_compliant && (validation_level == "strict") then "blocked"
  else if has_errors then "error"
  else if !all_findings.isEmpty then "warning"
  else "success"

/-- `OutputValidator.validate(output, ir)` reduced to its status result: the
output is parsed, the three concurrent scanners produce findings over the
file blocks (their results appear here as the already-computed lists, merged
in the source order `syntax + security + quality`), the contract verifier
runs on the parsed output, and the status is decided by `statusOf`. -/
def validateStatus (synFindings securityFindings qualityFindings : List Finding)
    (parsed : ParsedOutput) (ir : Doc) : String :=
  let all_findings := synFindings ++ securityFindings ++ qualityFindings
  let contract_compliant := (ContractVerifier.verify parsed ir).1
  statusOf all_findings contract_compliant ir

end OutputValidator

/-! ## Two-tier cache (`l1_cache.py`, `manager.py`, `l2_cache.py`) -/

/-- `L1Cache`: in-memory LRU cache with TTL.  The backing `OrderedDict` is
modelled as a list of `(key, value, expiry)` entries kept in recency order:
the head is the least recently used entry (the one `popitem(last=False)`
removes), the last element the most recently used.  `time.time()` is passed
explicitly as `now : Nat`. -/
structure L1Cache (α : Type) where
  max_size : Nat := 100
  ttl_seconds : Nat := 300
  cache : List (String × α × Nat) := []

namespace L1Cache

/-- `L1Cache.get(key)` at time `now`: a missing key is a miss; an expired
entry is deleted and a miss; otherwise the entry is moved to the end
(most recently used) and its value returned.  `move_to_end` and `del` are
expressed by filtering out the key's entries (an `OrderedDict` holds at
most one entry per key, so this matches the source on every state `set`
can produce). -/
def get (c : L1Cache α) (now : Nat) (key : String) : Option α × L1Cache α :=
  match c.cache.find? (fun e => e.1 == key) with
  | none => (none, c)
  | some (_, value, expiry) =>
    if now > expiry then
      (none, { c with cache := c.cache.filter (fun e => e.1 != key) })
    else
      (some value,
        { c with cache :=
            c.cache.filter (fun e => e.1 != key) ++ [(key, value, expiry)] })

/-- `L1Cache.set(key, value)` at time `now`: `expiry = now + ttl_seconds`;
an existing key is overwritten and moved to the end; a new key is appended,
after evicting the least-recently-used (first) entry when the cache is
full. -/
def set (c : L1Cache α) (now : Nat) (key : String) (value : α) : L1Cache α :=
  let expiry := now + c.ttl_seconds
  if c.cache.any (fun e => e.1 == key) then
    { c with cache :=
        c.cache.filter (fun e => e.1 != key) ++ [(key, value, expiry)] }
  else
    let base := if c.cache.length ≥ c.max_size then c.cache.drop 1 else c.cache
    { c with cache := base ++ [(key, value, expiry)] }

end L1Cache

/-- `CacheManager`: L1 tier plus the L2 (Redis) tier.  All actual Redis I/O
is external; `CacheManager.get` receives the L2 lookup as a function
`l2get`.  A fully disabled L2 (`l2_cache.py` guard
`if not self._enabled or not self._redis: return None`, and `set`
likewise a no-op) is the function returning `none` for every key. -/
structure CacheManager (α : Type) where
  l1 : L1Cache α

namespace CacheManager

/-- The L2 tier with Redis unavailable or disabled: every `get` is a miss. -/
def disabledL2 (α : Type) : String → Option α := fun _ => none

/-- `CacheManager.get(key)`: try L1 first; on a hit return the value.  On an
L1 miss consult L2; on an L2 hit promote the value into L1 (an `l1.set` at
the current time) and return it; otherwise a miss. -/
def get (m : CacheManager α) (l2get : String → Option α) (now : Nat)
    (key : String) : Option α × CacheManager α :=
  let (value, l1') := m.l1.get now key
  match value with
  | some v => (some v, { l1 := l1' })
  | none =>
    match l2get key with
    | some v => (some v, { l1 := l1'.set now key v })
    | none => (none, { l1 := l1' })

/-- `CacheManager.set(key, value)`: write to L1; the L2 write is external
Redis I/O (a no-op when L2 is disabled) and does not affect the modelled
state. -/
def set (m : CacheManager α) (now : Nat) (key : String) (value : α) :
    CacheManager α :=
  { l1 := m.l1.set now key value }

end CacheManager

/-! ## IR schema validator with repair (`ir/validator.py`, `schema_loader.py`) -/

/-- Modelled from the spec: the JSON-schema file `schemas/ir_v2.1.json`
loaded by `schema_loader.load_schema` is not among the repository sources;
this check is modelled from spec §3 — "nested record with six required
top-level sections … Invariant: post-validation, all six sections exist;
absence of any is a schema violation."  `validate_ir` returns
`(True, None)` when no section is missing, else `(False, messages)` with
one jsonschema-style message per missing required section. -/
def missingSections (d : Doc) : List String :=
  (if d.meta.isNone then ["meta"] else []) ++
  (if d.task.isNone then ["task"] else []) ++
  (if d.context.isNone then ["context"] else []) ++
  (if d.constraints.isNone then ["constraints"] else []) ++
  (if d.output_contract.isNone then ["output_contract"] else []) ++
  (if d.quality_checks.isNone then ["quality_checks"] else [])

/-- Modelled from the spec (continued): the schema check succeeds exactly
when no required section is missing; on failure it reports one
jsonschema-style message per missing section. -/
def validateIr (d : Doc) : Bool × Option (List String) :=
  if (missingSections d).isEmpty then (true, none)
  else (false,
    some ((missingSections d).map (fun s => "'" ++ s ++ "' is a required property")))

namespace IRValidator

/-- `IRValidator._attempt_repair`: fill the missing required fields with the
fixed defaults (`meta.intent = "scaffold"`, version strings, empty
`must_avoid`, `task.description = ""`, the default `output_contract` with
`required_sections = []` and `file_block_format = "strict"`, empty
`quality_checks`), leaving every present field untouched.  (`context` is
never touched by the repair code.) -/
def attemptRepair (d : Doc) : Doc :=
  let meta0 := d.meta.getD {}
  let task0 := d.task.getD {}
  let cons0 := d.constraints.getD {}
  { meta := some
      { intent := some (meta0.intent.getD "scaffold")
        schema_version := some (meta0.schema_version.getD "2.1.0")
        compiler_version := some (meta0.compiler_version.getD "0.1.0") }
    task := some { task0 with description := some (task0.description.getD "") }
    context := d.context
    constraints := some { cons0 with must_avoid := some (cons0.must_avoid.getD []) }
    output_contract := some (d.output_contract.getD
      { required_sections := some [], file_block_format := some "strict" })
    quality_checks := some (d.quality_checks.getD {}) }

/-- `IRValidator.validate(ir_data, attempt)`: run the schema check; valid ⇒
success with the current document.  Invalid with `attempt >= max_retries` ⇒
failure with the errors of this (final) schema check.  Otherwise repair and
recurse with `attempt + 1`. -/
def validate (max_retries : Nat) (d : Doc) (attempt : Nat) :
    Bool × Option (List String) × Doc :=
  let r := validateIr d
  if r.1 then (true, none, d)
  else if max_retries ≤ attempt then (false, r.2, d)
  else validate max_retries (attemptRepair d) (attempt + 1)
termination_by max_retries - attempt
decreasing_by simp_wf; omega

/-- Number of calls to `validate` (equivalently, of schema checks) that the
run starting at `(d, attempt)` performs, counting the initial call. -/
def validateCalls (max_retries : Nat) (d : Doc) (attempt : Nat) : Nat :=
  let r := validateIr d
  if r.1 then 1
  else if max_retries ≤ attempt then 1
  else 1 + validateCalls max_retries (attemptRepair d) (attempt + 1)
termination_by max_retries - attempt
decreasing_by simp_wf; omega

end IRValidator

/-! ## Token optimizer (`token_optimizer.py`) -/

namespace TokenOptimizer

/-- `TokenOptimizer._get_adaptive_budget(base_budget, intent)`: the intent
multipliers are 1.2 (scaffold), 1.1 (devops), 1.0 (debug), 1.0 (refactor),
0.9 (explain), default 1.0, and the result is `int(base_budget * multiplier)`.
The Python floats `1.2`, `1.1`, `0.9` are modelled as the exact rationals
12/10, 11/10, 9/10 with floor division: for every realistic budget
(`base_budget < 2^50`) the rounded double product truncates to the same
integer, because when `base_budget * multiplier` is an exact integer the
double product rounds to exactly that integer (the multiplier's relative
representation error, well below 2^-53, is absorbed), and otherwise the
fractional part of the exact product is at least 1/10, far above the
product's rounding error. -/
def getAdaptiveBudget (base_budget : Nat) (intent : String) : Nat :=
  let multNum : Nat :=
    if intent = "scaffold" then 12
    else if intent = "devops" then 11
    else if intent = "debug" then 10
    else if intent = "refactor" then 10
    else if intent = "explain" then 9
    else 10
  base_budget * multNum / 10

/-- The strategy-application loop of `TokenOptimizer.optimize`: each
strategy (an external transformation that may throw) is applied in order;
a throwing strategy is caught, recorded as a warning, and the document
state prior to that strategy is kept. -/
def applyStrategies (strategies : List (Doc → Except String Doc)) (d : Doc)
    (warnings : List String) : Doc × List String :=
  match strategies with
  | [] => (d, warnings)
  | s :: rest =>
    match s d with
    | .ok d' => applyStrategies rest d' warnings
    | .error e => applyStrategies rest d (warnings ++ ["Strategy failed: " ++ e])

/-- `TokenOptimizer.optimize(ir_data, token_budget, intent)`.  External
pieces appear as parameters: `strategies` are the three optimization
strategies, `addMeta` is the insertion of the semantic fingerprint and
priority weights into `optimized["optimization"]` (hashing, content
irrelevant here), and `serLen` is `len(json.dumps(d, separators=(",",":")))`.
`estimated_tokens = serLen / 4` (floor).  When the estimate exceeds the
adaptive budget a warning is appended, and when it moreover exceeds
`adaptive_budget * 1.5` the optimizer raises `ValueError("Scope too
large, split into sub-tasks")`; `estimated > adaptive * 1.5` over the
integers is `2 * estimated > 3 * adaptive` (the double `adaptive * 1.5`
is exact for every representable budget). -/
def optimize (strategies : List (Doc → Except String Doc))
    (addMeta : Doc → Doc) (serLen : Doc → Nat)
    (token_budget : Nat) (intent : String) (ir_data : Doc) :
    Except String (Doc × List String) :=
  let adaptive_budget := getAdaptiveBudget token_budget intent
  let (optimized0, warnings) := applyStrategies strategies ir_data []
  let optimized := addMeta optimized0
  let estimated_tokens := serLen optimized / 4
  if estimated_tokens > adaptive_budget then
    if 2 * estimated_tokens > 3 * adaptive_budget then
      .error "Scope too large, split into sub-tasks"
    else
      .ok (optimized, warnings ++ ["Estimated tokens exceed budget"])
  else
    .ok (optimized, warnings)

end TokenOptimizer

/-! ## Dialect compilers (`dialects/claude.py`, `dialects/gpt.py`,
`dialects/oss.py`)

Each compiler builds its output by appending rendered blocks in source
order.  The model keeps one entry per block — the contiguous group of
`parts.append(...)` / `messages.append(...)` statements that renders it —
tagged with the block kind; only the presence and order of blocks matter
to the specification, so the rendered text is abbreviated to the block's
principal content. -/

/-- The five block kinds of the dialect renderers. -/
inductive BlockKind where
  | contract
  | task
  | constraints
  | context
  | quality
deriving DecidableEq, Inhabited, Repr

/-- A rendered block: its kind and (abbreviated) rendered content. -/
structure DialectBlock where
  kind : BlockKind
  content : String
deriving DecidableEq, Inhabited

/-- Truthiness of the `quality_checks` dict (`if quality:`): non-empty. -/
def QualityChecks.isTruthy (q : QualityChecks) : Bool :=
  q.validation_level.isSome || q.security_level.isSome

/-- Truthiness of the `context` dict (`if context:` in `claude.py`):
non-empty. -/
def ContextSection.isTruthy (c : ContextSection) : Bool :=
  c.stack.isSome

/-- Truthiness of `context.get("stack")` (`gpt.py` / `oss.py`): the key is
present and the stack dict is non-empty. -/
def ContextSection.stackTruthy (c : ContextSection) : Bool :=
  match c.stack with
  | none => false
  | some s => s.language.isSome || s.framework.isSome

namespace ClaudeDialectCompiler

/-- `ClaudeDialectCompiler.compile(ir)` at block granularity: contract,
task and constraints blocks are always emitted; the context block only when
the `context` dict is truthy; the quality block only when `quality_checks`
is truthy. -/
def blocks (ir : Doc) : List DialectBlock :=
  let task := ir.task.getD {}
  let quality := ir.quality_checks.getD {}
  [{ kind := .contract, content := "output_contract" },
   { kind := .task, content := task.description.getD "" },
   { kind := .constraints, content := "constraints" }] ++
  (if (ir.context.getD {}).isTruthy then
    [{ kind := .context, content := "context" }] else []) ++
  (if quality.isTruthy then
    [{ kind := .quality, content := "quality_requirements" }] else [])

end ClaudeDialectCompiler

namespace GPTDialectCompiler

/-- `GPTDialectCompiler.compile(ir)` at message granularity: the system
contract message and the user task message are always emitted; the
constraints message only when at least one constraint line was added
(`len(constraint_lines) > 1`); the stack message only when
`context.get("stack")` is truthy.  The compiler has no code path that
emits a quality-requirements message. -/
def blocks (ir : Doc) : List DialectBlock :=
  let task := ir.task.getD {}
  let constraints := ir.constraints.getD {}
  let hasConstraintLines :=
    !(constraints.must_have.getD []).isEmpty ||
    !(constraints.must_avoid.getD []).isEmpty ||
    constraints.security_preserve.getD false
  [{ kind := .contract, content := "OUTPUT CONTRACT (MANDATORY)" },
   { kind := .task, content := task.description.getD "" }] ++
  (if hasConstraintLines then
    [{ kind := .constraints, content := "Constraints" }] else []) ++
  (if (ir.context.getD {}).stackTruthy then
    [{ kind := .context, content := "Stack" }] else [])

end GPTDialectCompiler

namespace OSSDialectCompiler

/-- `OSSDialectCompiler.compile(ir)` at block granularity: contract, task
and constraints headings are always emitted; the context block only when
`context.get("stack")` is truthy; the quality block only when
`quality_checks` is truthy. -/
def blocks (ir : Doc) : List DialectBlock :=
  let task := ir.task.getD {}
  let quality := ir.quality_checks.getD {}
  [{ kind := .contract, content := "OUTPUT CONTRACT (MANDATORY)" },
   { kind := .task, content := task.description.getD "" },
   { kind := .constraints, content := "Constraints" }] ++
  (if (ir.context.getD {}).stackTruthy then
    [{ kind := .context, content := "Context" }] else []) ++
  (if quality.isTruthy then
    [{ kind := .quality, content := "Quality Requirements" }] else [])

end OSSDialectCompiler

/-! ## Pipeline orchestrator (`pipeline/orchestrator.py`) -/

/-- The keyword arguments of `PipelineOrchestrator.execute`. -/
structure ExecArgs where
  input_text : String
  intent : Option String
  target_model : String := "oss"
  token_budget : Nat := 4000
  scaffold_mode : String := "full"
  security_level : String := "high"
  validation_mode : String := "strict"
deriving DecidableEq, Inhabited

/-- The fixed collaborators of one `execute` run: intent routing and
clarification (stages 1/1.5), the external draft builder (stage 2), the
cache (key derivation over `(hash_ir(ir), schema_version, compiler_version,
target_model)` and the lookup, returning the cached result's status), the
optimizer's external pieces, dialect compilation, the external output
generator, output parsing, and the three scanners run over the parsed
file blocks. -/
structure Collaborators where
  routeIntent : String → Option String → String
  clarify : String → String → List String
  buildIr : String → String → List String → Doc
  cacheKey : Doc → String → String
  cacheGet : String → Option String
  strategies : List (Doc → Except String Doc)
  addMeta : Doc → Doc
  serLen : Doc → Nat
  compilePrompt : Doc → String → String
  generate : String → Doc → String → String
  parseOutput : String → ParsedOutput
  synFindings : List FileBlock → List Finding
  securityFindings : List FileBlock → List Finding
  qualityFindings : List FileBlock → List Finding

namespace PipelineOrchestrator

/-- `PipelineOrchestrator.execute`, reduced to the validation status it
reports (`validation_report["status"]`, also the result's top-level
`status`).  Stage 0 builds the normalized-input record — the only place
the `security_level` and `validation_mode` arguments go; it is stored and
never read again.  Then: intent routing, clarification, draft building,
cache lookup (a hit short-circuits with the cached status), schema
validation with repair (a terminal `ValueError` when still invalid),
token optimization (the optimizer's overflow `ValueError` propagates),
dialect compilation, output generation, and stage 8's output validation. -/
def executeStatus (C : Collaborators) (a : ExecArgs) : Except String String :=
  let _normalized_input :=
    (a.input_text, a.intent, a.target_model, a.token_budget,
     a.scaffold_mode, a.security_level, a.validation_mode)
  let detected_intent := C.routeIntent a.input_text a.intent
  let assumptions := C.clarify a.input_text detected_intent
  let ir := C.buildIr a.input_text detected_intent assumptions
  let cache_key := C.cacheKey ir a.target_model
  match C.cacheGet cache_key with
  | some cachedStatus => .ok cachedStatus
  | none =>
    let vres := IRValidator.validate 3 ir 0
    if !vres.1 then .error "IR validation failed"
    else
      match TokenOptimizer.optimize C.strategies C.addMeta C.serLen
          a.token_budget detected_intent vres.2.2 with
      | .error e => .error e
      | .ok (optimized_ir, _warnings) =>
        let compiled_prompt := C.compilePrompt optimized_ir a.target_model
        let output := C.generate compiled_prompt optimized_ir a.scaffold_mode
        let parsed := C.parseOutput output
        let fbs := parsed.file_blocks
        .ok (OutputValidator.validateStatus (C.synFindings fbs)
          (C.securityFindings fbs) (C.qualityFindings fbs) parsed optimized_ir)

end PipelineOrchestrator

/-! ## Concrete example inputs used by scenario conjuncts, counterexamples
and witnesses -/

/-- The empty document `{}`. -/
def docEmpty : Doc := {}

/-- `{"meta": {"intent": "scaffold"}}` — the document of the repository's
own test `test_validate_missing_required_fields`; it misses `task` (and
`context`) entirely. -/
def docMeta : Doc := { meta := some { intent := some "scaffold" } }

/-- A regex match for a file block `FILE: a.py` whose fenced code has no
language tag (group 2 empty). -/
def rawNoLang : RawFileMatch := { path := "a.py", langTag := none, content := "print(1)" }

/-- Parsed output consisting of exactly that one file block. -/
def parsedC2 : ParsedOutput :=
  { sections := [], file_blocks := OutputParser.extractFileBlocks [rawNoLang] }

/-- IR with `required_files=["a.py"]`, `file_block_format="strict"`,
`validation_level="strict"` and `security_level="low"`. -/
def irStrictFile : Doc :=
  { output_contract := some
      { required_sections := some []
        required_files := some ["a.py"]
        file_block_format := some "strict" }
    quality_checks := some
      { validation_level := some "strict", security_level := some "low" } }

/-- Parsed output with no sections and no file blocks. -/
def parsedEmpty : ParsedOutput := { sections := [], file_blocks := [] }

/-- A non-security error-severity finding (a syntax error). -/
def errFindingSyn : Finding := { type := "syntax", severity := "error", message := "invalid" }

/-- A document whose only non-empty section is a non-empty `quality_checks`. -/
def docQualityOnly : Doc := { quality_checks := some { validation_level := some "strict" } }

/-! # Theorems -/

/-! ## Helper lemmas -/

/-- The `missing` list built by a filter over a required list is empty
exactly when every required entry passes the membership check. -/
theorem filter_not_isEmpty_eq_all (c : String → Bool) (rs : List String) :
    (rs.filter (fun s => !c s)).isEmpty = rs.all c := by
  induction rs with
  | nil => rfl
  | cons hd tl ih =>
    cases h : c hd <;> simp [List.filter_cons, h, List.all_cons, ih]

/-- `OutputValidator.statusOf` written as the first-matching-rule cascade
over propositional conditions: rule 1 (security error and high security
level) and rule 2 (contract violation and strict validation) give
`"blocked"`, rule 3 (any error finding) gives `"error"`, rule 4 (any
finding) gives `"warning"`, rule 5 gives `"success"`. -/
theorem statusOf_eq_cases (fs : List Finding) (compliant : Bool) (ir : Doc) :
    OutputValidator.statusOf fs compliant ir =
      if (fs.any (fun f => f.type == "security" && f.severity == "error") = true
            ∧ ((ir.quality_checks.getD {}).security_level).getD "low" = "high")
          ∨ (compliant = false
            ∧ ((ir.quality_checks.getD {}).validation_level).getD "progressive" = "strict")
      then "blocked"
      else if fs.any (fun f => f.severity == "error") = true then "error"
      else if fs ≠ [] then "warning"
      else "success" := by
  unfold OutputValidator.statusOf
  rcases hsec : fs.any (fun f => f.type == "security" && f.severity == "error") <;>
  rcases herr : fs.any (fun f => f.severity == "error") <;>
  rcases hc : compliant <;>
  by_cases hsl : ((ir.quality_checks.getD {}).security_level).getD "low" = "high" <;>
  by_cases hvl : ((ir.quality_checks.getD {}).validation_level).getD "progressive" = "strict" <;>
  by_cases hfs : fs = [] <;>
  simp [hsec, herr, hsl, hvl, hfs, beq_iff_eq, List.isEmpty_iff]

/-! ## C1 — output-validation status state machine -/

/-- C1: the final status of `OutputValidator.validate` is decided by the
first matching rule, in this exact order: (1) an error-severity security
finding with `security_level == "high"` gives `"blocked"`; (2) a contract
violation with `validation_level == "strict"` gives `"blocked"`; (3) any
error-severity finding gives `"error"`; (4) any finding gives `"warning"`;
(5) otherwise `"success"`.  Moreover a run with an error finding together
with a strict contract violation is `"blocked"` (rules 1/2 outrank 3), and
a missing required file under strict validation is `"blocked"` even with
zero findings. -/
theorem C1_output_status_rule_order :
    (∀ (synF secF qualF : List Finding) (parsed : ParsedOutput) (ir : Doc),
      OutputValidator.validateStatus synF secF qualF parsed ir =
        if ((synF ++ secF ++ qualF).any
              (fun f => f.type == "security" && f.severity == "error") = true
              ∧ ((ir.quality_checks.getD {}).security_level).getD "low" = "high")
            ∨ ((ContractVerifier.verify parsed ir).1 = false
              ∧ ((ir.quality_checks.getD {}).validation_level).getD "progressive" = "strict")
        then "blocked"
        else if (synF ++ secF ++ qualF).any (fun f => f.severity == "error") = true
        then "error"
        else if synF ++ secF ++ qualF ≠ [] then "warning"
        else "success")
    ∧ OutputValidator.validateStatus [errFindingSyn] [] [] parsedEmpty irStrictFile = "blocked"
    ∧ OutputValidator.validateStatus [] [] [] parsedEmpty irStrictFile = "blocked" := by
  refine ⟨fun synF secF qualF parsed ir => ?_, by decide, by decide⟩
  exact statusOf_eq_cases (synF ++ secF ++ qualF) (ContractVerifier.verify parsed ir).1 ir

/-! ## C2 — strict file-block-format checking -/

/-- Every file block produced by `OutputParser._extract_file_blocks` has a
non-empty `language`: a missing language tag is replaced by `"text"`. -/
theorem extractFileBlocks_language_ne_empty (ms : List RawFileMatch) :
    (OutputParser.extractFileBlocks ms).all (fun fb => fb.language != "") = true := by
  apply List.all_eq_true.mpr
  intro fb hfb
  rw [OutputParser.extractFileBlocks] at hfb
  rcases List.mem_map.mp hfb with ⟨m, _, rfl⟩
  rcases hm : m.langTag with _ | s
  · simp [hm]
  · rcases hs : s == "" <;> simp [hm, hs, bne]

/-- C2 counterexample: the generated output `FILE: a.py` followed by a
fenced block with no language tag, against the contract
`required_files=["a.py"]`, `required_sections=[]`,
`file_block_format="strict"` and `validation_level="strict"`.  The parser
defaults the missing language tag to `"text"`, so `ContractVerifier.verify`
returns `compliant = true` — not `false` as the claim states — and the
status (with no findings) is `"success"`, not `"blocked"`. -/
theorem C2_counterexample_no_lang_tag_still_compliant :
    rawNoLang.langTag = none
    ∧ (irStrictFile.output_contract.getD {}).file_block_format = some "strict"
    ∧ (ContractVerifier.verify parsedC2 irStrictFile).1 = true
    ∧ OutputValidator.validateStatus [] [] [] parsedC2 irStrictFile = "success" := by
  decide

/-- C2 amended: on parsed generated output every file block carries a
non-empty language (the parser's `"text"` default), so in `"strict"`
file-block-format mode the language check never fails for generated
output; `ContractVerifier.verify` reports compliance exactly when every
required section and every required file is present. -/
theorem C2_amended_strict_format_on_parser_output :
    ∀ (secs : List OutputSection) (ms : List RawFileMatch) (ir : Doc),
      (ContractVerifier.verify
          { sections := secs, file_blocks := OutputParser.extractFileBlocks ms } ir).1 =
        (((ir.output_contract.getD {}).required_sections.getD []).all
            (fun s => (secs.map (·.name)).contains s)
          && ((ir.output_contract.getD {}).required_files.getD []).all
            (fun f => ((OutputParser.extractFileBlocks ms).map (·.path)).contains f)) := by
  intro secs ms ir
  unfold ContractVerifier.verify
  simp only [filter_not_isEmpty_eq_all]
  split_ifs with h
  · rw [extractFileBlocks_language_ne_empty ms, Bool.and_true]
  · rw [Bool.and_true]

/-! ## C3 — cache set/get/TTL invariant -/

/-- `find?` on a list whose proper prefix has no entry for key `k`. -/
theorem find?_key_append_single {α : Type} (l : List (String × α × Nat))
    (k : String) (x : String × α × Nat)
    (h : ∀ e ∈ l, (e.1 == k) = false) :
    (l ++ [x]).find? (fun e => e.1 == k) =
      if (x.1 == k) = true then some x else none := by
  induction l with
  | nil =>
    rcases hx : x.1 == k <;> simp [List.find?, hx]
  | cons hd tl ih =>
    have hh := h hd (List.mem_cons_self _ _)
    have ih' := ih (fun e he => h e (List.mem_cons_of_mem _ he))
    simpa [List.find?, hh] using ih'

/-- After `L1Cache.set`, the entry for the key is findable and carries the
expiry `now + ttl`. -/
theorem L1Cache.set_find (α : Type) (c : L1Cache α) (t : Nat) (k : String) (v : α) :
    ((c.set t k v).cache).find? (fun e => e.1 == k) =
      some (k, v, t + c.ttl_seconds) := by
  simp only [L1Cache.set]
  split_ifs with hmem hlen
  · have hpre : ∀ e ∈ c.cache.filter (fun e => e.1 != k), (e.1 == k) = false := by
      intro e he
      have h2 := (List.mem_filter.mp he).2
      simpa [bne] using h2
    rw [find?_key_append_single _ _ _ hpre]
    simp
  · have hall : ∀ x ∈ c.cache, (x.1 == k) = false := by
      intro x hx
      rcases hx2 : x.1 == k
      · rfl
      · exact absurd (List.any_eq_true.mpr ⟨x, hx, hx2⟩) hmem
    have hpre : ∀ e ∈ c.cache.drop 1, (e.1 == k) = false :=
      fun e he => hall e (List.mem_of_mem_drop he)
    rw [find?_key_append_single _ _ _ hpre]
    simp
  · have hall : ∀ x ∈ c.cache, (x.1 == k) = false := by
      intro x hx
      rcases hx2 : x.1 == k
      · rfl
      · exact absurd (List.any_eq_true.mpr ⟨x, hx, hx2⟩) hmem
    rw [find?_key_append_single _ _ _ hall]
    simp

/-- `L1Cache.set` then `get` on the same key: the value is returned while
`now ≤ expiry` and the read is a miss once `now > expiry`. -/
theorem L1Cache.set_then_get (α : Type) (c : L1Cache α) (t t' : Nat)
    (k : String) (v : α) :
    (((c.set t k v).get t' k)).1 =
      if t + c.ttl_seconds < t' then none else some v := by
  unfold L1Cache.get
  rw [L1Cache.set_find]
  by_cases ht : t + c.ttl_seconds < t'
  · rw [if_pos ht]
    simp [gt_iff_lt, ht]
  · rw [if_neg ht]
    simp [gt_iff_lt, ht]

/-- C3: for every key `k` and value `v`, immediately after
`CacheManager.set(k, v)` at time `t`, `get(k)` at any time `t'` returns
`v` as long as the TTL has not elapsed (`t' ≤ t + ttl`) and returns
nothing once it has (`t' > t + ttl`) — with the L2 tier fully disabled
(every L2 read a miss). -/
theorem C3_cache_set_get_until_ttl (α : Type) (m : CacheManager α)
    (t t' : Nat) (k : String) (v : α) :
    ((m.set t k v).get (CacheManager.disabledL2 α) t' k).1 =
      if t + m.l1.ttl_seconds < t' then none else some v := by
  unfold CacheManager.get CacheManager.set CacheManager.disabledL2
  rcases hp : (m.l1.set t k v).get t' k with ⟨value, l1'⟩
  have hv : value = if t + m.l1.ttl_seconds < t' then none else some v := by
    have := L1Cache.set_then_get α m.l1 t t' k v
    rw [hp] at this
    exact this
  by_cases ht : t + m.l1.ttl_seconds < t'
  · rw [if_pos ht] at hv ⊢
    simp [hp, hv]
  · rw [if_neg ht] at hv ⊢
    simp [hp, hv]

/-! ## C4 / C5 — schema validation with bounded repair -/

/-- An invalid schema check always carries an error list. -/
theorem validateIr_invalid_some (d : Doc) :
    (validateIr d).1 = false → ∃ msgs, (validateIr d).2 = some msgs := by
  unfold validateIr
  split_ifs with h
  · intro hcontra
    exact absurd hcontra (by simp)
  · intro _
    exact ⟨_, rfl⟩

/-- Fuel-indexed bound: the number of `validate` calls from `(d, attempt)`
is at most `max_retries - attempt + 1`. -/
theorem validateCalls_le_aux (fuel : Nat) :
    ∀ (mr a : Nat) (d : Doc), mr - a ≤ fuel →
      IRValidator.validateCalls mr d a ≤ mr - a + 1 := by
  induction fuel with
  | zero =>
    intro mr a d h
    rw [IRValidator.validateCalls]
    have hma : mr ≤ a := by omega
    by_cases hr : (validateIr d).1 <;> simp [hr, hma]
  | succ n ih =>
    intro mr a d h
    rw [IRValidator.validateCalls]
    by_cases hr : (validateIr d).1
    · simp [hr]
    · by_cases hma : mr ≤ a
      · simp [hr, hma]
      · have hrec := ih mr (a + 1) (IRValidator.attemptRepair d) (by omega)
        simp [hr, hma]
        omega

/-- Fuel-indexed result shape: `validate` returns `(true, none, _)` or
`(false, some errors, _)`. -/
theorem validate_shape_aux (fuel : Nat) :
    ∀ (mr a : Nat) (d : Doc), mr - a ≤ fuel →
      ((IRValidator.validate mr d a).1 = true
        ∧ (IRValidator.validate mr d a).2.1 = none)
      ∨ ((IRValidator.validate mr d a).1 = false
        ∧ ∃ errs, (IRValidator.validate mr d a).2.1 = some errs) := by
  induction fuel with
  | zero =>
    intro mr a d h
    rw [IRValidator.validate]
    have hma : mr ≤ a := by omega
    by_cases hr : (validateIr d).1
    · simp [hr]
    · right
      have := validateIr_invalid_some d (by simpa using hr)
      simp [hr, hma]
      exact this
  | succ n ih =>
    intro mr a d h
    rw [IRValidator.validate]
    by_cases hr : (validateIr d).1
    · simp [hr]
    · by_cases hma : mr ≤ a
      · right
        have := validateIr_invalid_some d (by simpa using hr)
        simp [hr, hma]
        exact this
      · have hrec := ih mr (a + 1) (IRValidator.attemptRepair d) (by omega)
        simpa [hr, hma] using hrec

/-- Fuel-indexed final-error characterization: a failing `validate` run
returns exactly the schema errors of the document it returns — the last
repaired document, which is still invalid. -/
theorem validate_final_errors_aux (fuel : Nat) :
    ∀ (mr a : Nat) (d : Doc), mr - a ≤ fuel →
      (IRValidator.validate mr d a).1 = false →
      (validateIr (IRValidator.validate mr d a).2.2).1 = false
      ∧ (IRValidator.validate mr d a).2.1 =
          (validateIr (IRValidator.validate mr d a).2.2).2 := by
  induction fuel with
  | zero =>
    intro mr a d h
    rw [IRValidator.validate]
    have hma : mr ≤ a := by omega
    by_cases hr : (validateIr d).1 <;> simp [hr, hma]
  | succ n ih =>
    intro mr a d h
    rw [IRValidator.validate]
    by_cases hr : (validateIr d).1
    · simp [hr]
    · by_cases hma : mr ≤ a
      · simp [hr, hma]
      · have hrec := ih mr (a + 1) (IRValidator.attemptRepair d) (by omega)
        simpa [hr, hma] using hrec

/-- C4: for every input document, `IRValidator.validate(doc, attempt=0)`
terminates with `(true, _)` or `(false, errors)` within `maxRetries + 1`
schema checks — with the default `maxRetries = 3`, at most 4 — and on the
empty document the bound is attained exactly: 4 calls, ending invalid. -/
theorem C4_validate_terminates_bounded :
    (∀ (max_retries : Nat) (d : Doc),
      IRValidator.validateCalls max_retries d 0 ≤ max_retries + 1)
    ∧ (∀ d : Doc, IRValidator.validateCalls 3 d 0 ≤ 4)
    ∧ (∀ d : Doc,
      ((IRValidator.validate 3 d 0).1 = true
        ∧ (IRValidator.validate 3 d 0).2.1 = none)
      ∨ ((IRValidator.validate 3 d 0).1 = false
        ∧ ∃ errs, (IRValidator.validate 3 d 0).2.1 = some errs))
    ∧ IRValidator.validateCalls 3 docEmpty 0 = 4
    ∧ (IRValidator.validate 3 docEmpty 0).1 = false := by
  refine ⟨fun mr d => ?_, fun d => ?_, fun d => ?_, ?_, ?_⟩
  · simpa using validateCalls_le_aux (mr - 0) mr 0 d (le_refl _)
  · simpa using validateCalls_le_aux 3 3 0 d (by omega)
  · exact validate_shape_aux 3 3 0 d (by omega)
  · simp [IRValidator.validateCalls, validateIr, missingSections, IRValidator.attemptRepair, docEmpty]
  · simp [IRValidator.validate, validateIr, missingSections, IRValidator.attemptRepair, docEmpty]

/-- C5 counterexample: on `{"meta": {"intent": "scaffold"}}` (the
document of the repository's own unit test) the failing `validate` run
returns the error list of the final schema check — one message, the still
missing `context` section — which differs from the error list of the
first, unrepaired validation (five missing sections). -/
theorem C5_counterexample_final_errors_not_original :
    (IRValidator.validate 3 docMeta 0).1 = false
    ∧ (IRValidator.validate 3 docMeta 0).2.1 =
        some ["'context' is a required property"]
    ∧ (validateIr docMeta).2 =
        some ["'task' is a required property", "'context' is a required property",
          "'constraints' is a required property", "'output_contract' is a required property",
          "'quality_checks' is a required property"]
    ∧ (IRValidator.validate 3 docMeta 0).2.1 ≠ (validateIr docMeta).2 := by
  refine ⟨?_, ?_, ?_, ?_⟩ <;>
    simp [IRValidator.validate, validateIr, missingSections, IRValidator.attemptRepair, docMeta]

/-- C5 amended: whenever `validate` fails (the document is still invalid
with the retry budget exhausted), the error list it returns is exactly the
schema-error list of the final validation — the errors of the returned,
last-repaired document, which is still schema-invalid — and no further
repair is attempted. -/
theorem C5_amended_failure_carries_final_errors (max_retries attempt : Nat)
    (d : Doc) (hfail : (IRValidator.validate max_retries d attempt).1 = false) :
    (validateIr (IRValidator.validate max_retries d attempt).2.2).1 = false
    ∧ (IRValidator.validate max_retries d attempt).2.1 =
        (validateIr (IRValidator.validate max_retries d attempt).2.2).2 := by
  exact validate_final_errors_aux (max_retries - attempt) max_retries attempt d
    (le_refl _) hfail

/-- C5 witness: the amended theorem applied to the concrete failing run on
`docMeta`. -/
theorem C5_witness :
    (IRValidator.validate 3 docMeta 0).1 = false
    ∧ ((validateIr (IRValidator.validate 3 docMeta 0).2.2).1 = false
      ∧ (IRValidator.validate 3 docMeta 0).2.1 =
          (validateIr (IRValidator.validate 3 docMeta 0).2.2).2) :=
  ⟨by simp [IRValidator.validate, validateIr, missingSections, IRValidator.attemptRepair, docMeta],
   C5_amended_failure_carries_final_errors 3 0 docMeta
     (by simp [IRValidator.validate, validateIr, missingSections, IRValidator.attemptRepair, docMeta])⟩

/-! ## C6 — repair is defaults-only and frame-preserving -/

/-- C6: one repair pass fills exactly the missing required fields with the
fixed defaults and never removes or alters an existing field: each leaf
field of the repaired document is the original value when present
(`Option.getD` of a present value is that value) and the fixed default
otherwise; `context` is untouched; a document missing `task` entirely gets
`task.description = ""`. -/
theorem C6_repair_fills_only_missing (d : Doc) :
    ((IRValidator.attemptRepair d).meta = some
      { intent := some (((d.meta.getD {}).intent).getD "scaffold")
        schema_version := some (((d.meta.getD {}).schema_version).getD "2.1.0")
        compiler_version := some (((d.meta.getD {}).compiler_version).getD "0.1.0") })
    ∧ ((IRValidator.attemptRepair d).task = some
      { description := some (((d.task.getD {}).description).getD "")
        scope := (d.task.getD {}).scope })
    ∧ ((IRValidator.attemptRepair d).context = d.context)
    ∧ ((IRValidator.attemptRepair d).constraints = some
      { must_have := (d.constraints.getD {}).must_have
        must_avoid := some (((d.constraints.getD {}).must_avoid).getD [])
        security_preserve := (d.constraints.getD {}).security_preserve })
    ∧ ((IRValidator.attemptRepair d).output_contract = some
      (d.output_contract.getD
        { required_sections := some []
          required_files := none
          file_block_format := some "strict" }))
    ∧ ((IRValidator.attemptRepair d).quality_checks = some (d.quality_checks.getD {}))
    ∧ (IRValidator.attemptRepair docMeta).task =
        some { description := some "", scope := none } :=
  ⟨rfl, rfl, rfl, rfl, rfl, rfl, rfl⟩

/-! ## C7 — optimizer overflow is the only fatal condition -/

/-- C7: `TokenOptimizer.optimize` raises its terminal "scope too large"
error if and only if the final token estimate (serialized length divided
by 4) exceeds 1.5 × the adaptive budget (`2·estimate > 3·budget` over the
integers); when the estimate exceeds the budget by at most 1.5 × the run
returns normally, with the over-budget warning appended.  Strategy
failures never escape: the result is `.error` only in the overflow case. -/
theorem C7_optimizer_overflow_iff (strategies : List (Doc → Except String Doc))
    (addMeta : Doc → Doc) (serLen : Doc → Nat)
    (token_budget : Nat) (intent : String) (d : Doc) :
    ((∃ e, TokenOptimizer.optimize strategies addMeta serLen token_budget intent d
        = .error e) ↔
      3 * TokenOptimizer.getAdaptiveBudget token_budget intent <
        2 * (serLen (addMeta (TokenOptimizer.applyStrategies strategies d []).1) / 4))
    ∧ (TokenOptimizer.getAdaptiveBudget token_budget intent <
        serLen (addMeta (TokenOptimizer.applyStrategies strategies d []).1) / 4 →
      2 * (serLen (addMeta (TokenOptimizer.applyStrategies strategies d []).1) / 4) ≤
        3 * TokenOptimizer.getAdaptiveBudget token_budget intent →
      TokenOptimizer.optimize strategies addMeta serLen token_budget intent d =
        .ok (addMeta (TokenOptimizer.applyStrategies strategies d []).1,
          (TokenOptimizer.applyStrategies strategies d []).2 ++
            ["Estimated tokens exceed budget"])) := by
  rcases hp : TokenOptimizer.applyStrategies strategies d [] with ⟨opt0, warns⟩
  unfold TokenOptimizer.optimize
  rw [hp]
  simp only
  by_cases h1 : TokenOptimizer.getAdaptiveBudget token_budget intent <
      serLen (addMeta opt0) / 4
  · by_cases h2 : 3 * TokenOptimizer.getAdaptiveBudget token_budget intent <
        2 * (serLen (addMeta opt0) / 4)
    · refine ⟨iff_of_true ⟨"Scope too large, split into sub-tasks",
        by simp [h1, h2]⟩ h2, fun _ hle => ?_⟩
      omega
    · refine ⟨iff_of_false ?_ h2, fun _ _ => by simp [h1, h2]⟩
      rintro ⟨e, he⟩
      simp [h1, h2] at he
  · refine ⟨iff_of_false ?_ (by omega), fun hlt _ => absurd hlt h1⟩
    rintro ⟨e, he⟩
    simp [h1] at he

/-- C7 witness: a concrete over-budget but not overflowing run — estimate
13 against adaptive budget 10 — returns normally with the warning. -/
theorem C7_witness :
    TokenOptimizer.optimize [] id (fun _ => 52) 10 "debug" docEmpty =
      .ok (docEmpty, ["Estimated tokens exceed budget"]) :=
  (C7_optimizer_overflow_iff [] id (fun _ => 52) 10 "debug" docEmpty).2
    (by decide) (by decide)

/-! ## C8 — intent-adaptive budget -/

/-- C8 counterexample: at base budget 4, the scaffold budget
`int(4 * 1.2) = 4` equals the debug budget `4`, so the strict chain
`adaptiveBudget(scaffold) > adaptiveBudget(debug)` fails. -/
theorem C8_counterexample_small_budget :
    TokenOptimizer.getAdaptiveBudget 4 "scaffold" = 4
    ∧ TokenOptimizer.getAdaptiveBudget 4 "debug" = 4
    ∧ ¬(TokenOptimizer.getAdaptiveBudget 4 "scaffold" >
        TokenOptimizer.getAdaptiveBudget 4 "debug") := by
  refine ⟨by decide, by decide, by decide⟩

/-- C8 amended: the adaptive budget is the base budget scaled by the
intent multiplier (×1.2 scaffold, ×1.1 devops, ×1.0 debug/refactor/other,
×0.9 explain, truncated to an integer), and for every base budget of at
least 5 the strict chain `scaffold > debug = refactor > explain` holds
(integer truncation collapses `scaffold` and `debug` for budgets 1–4);
in particular base budget 4000 with intent "scaffold" gives 4800. -/
theorem C8_amended_budget_monotonic (b : Nat) (hb : 5 ≤ b) :
    TokenOptimizer.getAdaptiveBudget b "scaffold" >
      TokenOptimizer.getAdaptiveBudget b "debug"
    ∧ TokenOptimizer.getAdaptiveBudget b "debug" =
      TokenOptimizer.getAdaptiveBudget b "refactor"
    ∧ TokenOptimizer.getAdaptiveBudget b "refactor" >
      TokenOptimizer.getAdaptiveBudget b "explain"
    ∧ TokenOptimizer.getAdaptiveBudget 4000 "scaffold" = 4800 := by
  have hs : TokenOptimizer.getAdaptiveBudget b "scaffold" = b * 12 / 10 := by
    simp [TokenOptimizer.getAdaptiveBudget]
  have hd : TokenOptimizer.getAdaptiveBudget b "debug" = b * 10 / 10 := by
    simp [TokenOptimizer.getAdaptiveBudget]
  have hr : TokenOptimizer.getAdaptiveBudget b "refactor" = b * 10 / 10 := by
    simp [TokenOptimizer.getAdaptiveBudget]
  have he : TokenOptimizer.getAdaptiveBudget b "explain" = b * 9 / 10 := by
    simp [TokenOptimizer.getAdaptiveBudget]
  refine ⟨?_, ?_, ?_, by decide⟩
  · rw [hs, hd]; omega
  · rw [hd, hr]
  · rw [hr, he]; omega

/-- C8 witness: the amended chain at the concrete base budget 4000. -/
theorem C8_witness :
    5 ≤ 4000
    ∧ TokenOptimizer.getAdaptiveBudget 4000 "scaffold" >
        TokenOptimizer.getAdaptiveBudget 4000 "debug" :=
  ⟨by norm_num, (C8_amended_budget_monotonic 4000 (by norm_num)).1⟩

/-! ## C9 — dialect block ordering -/

/-- C9 counterexample: on a document whose `quality_checks` is non-empty
(`validation_level="strict"`), the gpt dialect renders only the contract
and task messages — no quality-requirements block at all — while the
claude dialect does render one; so "each of the three dialects renders the
quality block, omitting it only when empty" fails for gpt. -/
theorem C9_counterexample_gpt_omits_quality :
    (docQualityOnly.quality_checks.getD {}).isTruthy = true
    ∧ (GPTDialectCompiler.blocks docQualityOnly).map DialectBlock.kind =
        [BlockKind.contract, BlockKind.task]
    ∧ BlockKind.quality ∉
        (GPTDialectCompiler.blocks docQualityOnly).map DialectBlock.kind
    ∧ BlockKind.quality ∈
        (ClaudeDialectCompiler.blocks docQualityOnly).map DialectBlock.kind := by
  refine ⟨by decide, by decide, by decide, by decide⟩

/-- C9 amended: every dialect renders its present blocks as a subsequence
of the fixed order contract, task, constraints, context/stack,
quality-requirements — never reordering — and the contract block is always
the first rendered block (in particular for any non-empty
`output_contract`).  However the gpt dialect has no quality-requirements
block at all (even for non-empty `quality_checks`), while claude/oss emit
one exactly when `quality_checks` is non-empty (and render task and
constraints blocks even when empty). -/
theorem C9_amended_dialect_block_order (ir : Doc) :
    ((ClaudeDialectCompiler.blocks ir).map DialectBlock.kind).Sublist
        [BlockKind.contract, BlockKind.task, BlockKind.constraints,
          BlockKind.context, BlockKind.quality]
    ∧ ((GPTDialectCompiler.blocks ir).map DialectBlock.kind).Sublist
        [BlockKind.contract, BlockKind.task, BlockKind.constraints,
          BlockKind.context, BlockKind.quality]
    ∧ ((OSSDialectCompiler.blocks ir).map DialectBlock.kind).Sublist
        [BlockKind.contract, BlockKind.task, BlockKind.constraints,
          BlockKind.context, BlockKind.quality]
    ∧ ((ClaudeDialectCompiler.blocks ir).map DialectBlock.kind).head? =
        some BlockKind.contract
    ∧ ((GPTDialectCompiler.blocks ir).map DialectBlock.kind).head? =
        some BlockKind.contract
    ∧ ((OSSDialectCompiler.blocks ir).map DialectBlock.kind).head? =
        some BlockKind.contract
    ∧ (BlockKind.quality ∈ (ClaudeDialectCompiler.blocks ir).map DialectBlock.kind
        ↔ (ir.quality_checks.getD {}).isTruthy = true)
    ∧ BlockKind.quality ∉ (GPTDialectCompiler.blocks ir).map DialectBlock.kind
    ∧ (BlockKind.quality ∈ (OSSDialectCompiler.blocks ir).map DialectBlock.kind
        ↔ (ir.quality_checks.getD {}).isTruthy = true) := by
  refine ⟨?_, ?_, ?_, rfl, rfl, rfl, ?_, ?_, ?_⟩
  · unfold ClaudeDialectCompiler.blocks
    by_cases hc : (ir.context.getD {}).isTruthy <;>
      by_cases hq : (ir.quality_checks.getD {}).isTruthy <;>
      simp [hc, hq]
  · unfold GPTDialectCompiler.blocks
    by_cases hl : !((ir.constraints.getD {}).must_have.getD []).isEmpty ||
        !((ir.constraints.getD {}).must_avoid.getD []).isEmpty ||
        (ir.constraints.getD {}).security_preserve.getD false <;>
      by_cases hs : (ir.context.getD {}).stackTruthy <;>
      simp [hl, hs]
  · unfold OSSDialectCompiler.blocks
    by_cases hs : (ir.context.getD {}).stackTruthy <;>
      by_cases hq : (ir.quality_checks.getD {}).isTruthy <;>
      simp [hs, hq]
  · unfold ClaudeDialectCompiler.blocks
    by_cases hc : (ir.context.getD {}).isTruthy <;>
      by_cases hq : (ir.quality_checks.getD {}).isTruthy <;>
      simp [hc, hq]
  · unfold GPTDialectCompiler.blocks
    by_cases hl : !((ir.constraints.getD {}).must_have.getD []).isEmpty ||
        !((ir.constraints.getD {}).must_avoid.getD []).isEmpty ||
        (ir.constraints.getD {}).security_preserve.getD false <;>
      by_cases hs : (ir.context.getD {}).stackTruthy <;>
      simp [hl, hs]
  · unfold OSSDialectCompiler.blocks
    by_cases hs : (ir.context.getD {}).stackTruthy <;>
      by_cases hq : (ir.quality_checks.getD {}).isTruthy <;>
      simp [hs, hq]

/-! ## C10 — stage-8 status is independent of the security arguments -/

/-- C10: the validation status reported by `execute` depends only on the
document's own `quality_checks` (as read, with defaults, inside
`OutputValidator.validate`); the `security_level` and `validation_mode`
arguments of `execute` are stored in the stage-0 normalized input and never
read again, so two runs differing only in those two arguments — the
document and every collaborator output held fixed — report the same
status. -/
theorem C10_status_independent_of_security_args (C : Collaborators)
    (a : ExecArgs) (sl1 vm1 sl2 vm2 : String) :
    PipelineOrchestrator.executeStatus C
        { a with security_level := sl1, validation_mode := vm1 } =
      PipelineOrchestrator.executeStatus C
        { a with security_level := sl2, validation_mode := vm2 } := rfl
